import Mathlib

/-! # index.js : one GET request, one log line

A shallow embedding of `src/index.js`

    const axios = require('axios');
    async function fetchData() {
      try {
        const response = await axios.get('https://jsonplaceholder.typicode.com/todos/1');
        console.log(response.data);
      } catch (error) {
        console.error('Error fetching data:', error);
      }
    }
    fetchData();

JavaScript statements become computations over the history of external calls
made so far (`JS`), which either complete normally or throw a value.  The HTTP
client and the console are not part of the program: they are supplied by an
environment (`Env`) that says how the awaited request settles and whether a
console call returns or throws.

The environment is wider than the one the program meets in practice, where the
client resolves with response objects only and the console returns: it also
lets the request resolve with `undefined` or `null` and lets a console call
throw, so that the reach of the `catch` handler can be stated.  A theorem about
an ordinary run names the part of this it relies on as a hypothesis; the
theorems about requests, standard output on the success path and exit status
hold in every environment.
-/

namespace Fetcher

/-! ## Data model -/

/-- JavaScript values as far as the program can observe them: the JSON values,
`undefined`, and objects given by their own properties in order.  Numbers are
carried as integers; the program does no arithmetic on them. -/
inductive JSValue where
  | undefined : JSValue
  | null : JSValue
  | bool (b : Bool) : JSValue
  | num (n : Int) : JSValue
  | str (s : String) : JSValue
  | arr (items : List JSValue) : JSValue
  | obj (fields : List (String × JSValue)) : JSValue

/-- How an awaited promise settles. -/
inductive Outcome where
  | resolved (value : JSValue) : Outcome
  | rejected (reason : JSValue) : Outcome

/-- External calls a Node program can make that the specification talks about.
Only the first three occur in `index.js`; `processExit` stands for a call
`process.exit(code)` and `setExitCode` for an assignment `process.exitCode = code`. -/
inductive Effect where
  | httpGet (args : List JSValue) : Effect
  | consoleLog (args : List JSValue) : Effect
  | consoleError (args : List JSValue) : Effect
  | processExit (code : JSValue) : Effect
  | setExitCode (code : JSValue) : Effect

/-- The module bound to `axios` at line 1: how the promise returned by
`axios.get(...args)` settles.  A call that throws at once is caught by the same
handler as a rejection and counts as one. -/
structure Axios where
  get : List JSValue → Outcome

/-- The global `console`: for each call, `none` when it returns and `some x`
when it throws `x`. -/
structure Console where
  log : List JSValue → Option JSValue
  error : List JSValue → Option JSValue

/-- Everything the program is linked against. -/
structure Env where
  axios : Axios
  console : Console

/-! ## Statements as computations -/

/-- A JavaScript computation: from the history of external calls to a normal
completion (`Except.ok`) or a thrown value (`Except.error`), with the extended
history.  Calls already made stay in the history when a later step throws. -/
def JS (α : Type) : Type := List Effect → Except JSValue α × List Effect

/-- Normal completion with a value. -/
def JS.ret {α : Type} (a : α) : JS α := fun t => (Except.ok a, t)

/-- The statement `throw x`. -/
def JS.throw {α : Type} (x : JSValue) : JS α := fun t => (Except.error x, t)

/-- Sequencing: the rest runs only when the first part completes normally. -/
def JS.seq {α β : Type} (m : JS α) (k : α → JS β) : JS β := fun t =>
  match m t with
  | (Except.ok a, t1) => k a t1
  | (Except.error x, t1) => (Except.error x, t1)

/-- The statement `try { body } catch (error) { handler }`. -/
def JS.tryCatch {α : Type} (body : JS α) (handler : JSValue → JS α) : JS α := fun t =>
  match body t with
  | (Except.ok a, t1) => (Except.ok a, t1)
  | (Except.error x, t1) => handler x t1

instance : Monad JS where
  pure := JS.ret
  bind := JS.seq

/-- The value thrown by the engine when a property of `undefined` or `null` is
read (V8 wording of the message). -/
def typeErrorCannotRead (v : JSValue) (key : String) : JSValue :=
  JSValue.obj
    [("name", JSValue.str "TypeError"),
     ("message", JSValue.str
        ("Cannot read properties of " ++
          (match v with
           | JSValue.null => "null"
           | _ => "undefined") ++ " (reading \x27" ++ key ++ "\x27)"))]

/-- Whether a value is `undefined` or `null`. -/
def JSValue.isNullish : JSValue → Bool
  | JSValue.undefined => true
  | JSValue.null => true
  | _ => false

/-- The member expression `response.data`: throws a `TypeError` on `undefined`
and `null`, yields the property of an object (or `undefined` when it has none),
and `undefined` on the other values, none of which has a property `data`. -/
def getData (response : JSValue) : JS JSValue :=
  match response with
  | JSValue.undefined => JS.throw (typeErrorCannotRead response "data")
  | JSValue.null => JS.throw (typeErrorCannotRead response "data")
  | JSValue.obj fields => JS.ret ((fields.lookup "data").getD JSValue.undefined)
  | _ => JS.ret JSValue.undefined

/-- The call `axios.get(...args)`: recorded in the history, it yields the
settlement of the promise it returns. -/
def axios_get (env : Env) (args : List JSValue) : JS Outcome := fun t =>
  (Except.ok (env.axios.get args), t ++ [Effect.httpGet args])

/-- The expression `await p`: the value of a resolved promise, and a throw of
the reason of a rejected one. -/
def await (p : Outcome) : JS JSValue :=
  match p with
  | Outcome.resolved v => JS.ret v
  | Outcome.rejected e => JS.throw e

/-- The call `console.log(...args)`: recorded in the history whether it returns
or throws. -/
def console_log (env : Env) (args : List JSValue) : JS Unit := fun t =>
  (match env.console.log args with
   | none => Except.ok ()
   | some x => Except.error x,
   t ++ [Effect.consoleLog args])

/-- The call `console.error(...args)`: recorded in the history whether it
returns or throws. -/
def console_error (env : Env) (args : List JSValue) : JS Unit := fun t =>
  (match env.console.error args with
   | none => Except.ok ()
   | some x => Except.error x,
   t ++ [Effect.consoleError args])

/-- An `async function` body seen from its caller: the call never throws and
returns a promise, resolved with `undefined` when the body runs to its end and
rejected with whatever the body throws. -/
def async (body : JS Unit) : JS Outcome := fun t =>
  match body t with
  | (Except.ok _, t1) => (Except.ok (Outcome.resolved JSValue.undefined), t1)
  | (Except.error x, t1) => (Except.ok (Outcome.rejected x), t1)

/-! ## The program -/

/-- The string literal of line 5. -/
def url : String := "https://jsonplaceholder.typicode.com/todos/1"

/-- The string literal of line 8. -/
def label : String := "Error fetching data:"

/-- Lines 3 to 10, `async function fetchData()`. -/
def fetchData (env : Env) : JS Outcome :=
  async
    (JS.tryCatch
      (do
        let response ← (do let p ← axios_get env [JSValue.str url]; await p)
        let data ← getData response
        console_log env [data])
      (fun error => console_error env [JSValue.str label, error]))

/-- What one run of the module leaves behind: the history of external calls and,
if the promise dropped at line 12 was rejected, the reason nobody handles. -/
structure ProgramRun where
  trace : List Effect
  unhandled : Option JSValue

/-- Line 12, the expression statement `fetchData();` run on a given history.
The returned promise is dropped. -/
def main (env : Env) (history : List Effect) : ProgramRun :=
  match fetchData env history with
  | (Except.ok (Outcome.resolved _), t) => ProgramRun.mk t none
  | (Except.ok (Outcome.rejected e), t) => ProgramRun.mk t (some e)
  | (Except.error x, t) => ProgramRun.mk t (some x)

/-! ## Observations on a history -/

/-- The argument lists passed to `console.log`, in order: what the program sends
to standard output. -/
def stdoutOf (t : List Effect) : List (List JSValue) :=
  t.filterMap fun e =>
    match e with
    | Effect.consoleLog args => some args
    | _ => none

/-- The argument lists passed to `console.error`, in order: what the program
sends to standard error. -/
def stderrOf (t : List Effect) : List (List JSValue) :=
  t.filterMap fun e =>
    match e with
    | Effect.consoleError args => some args
    | _ => none

/-- The argument lists of the `axios.get` calls, in order: the requests issued. -/
def requestsOf (t : List Effect) : List (List JSValue) :=
  t.filterMap fun e =>
    match e with
    | Effect.httpGet args => some args
    | _ => none

/-- Whether an event ends the process or sets its exit status. -/
def Effect.isExit : Effect → Bool
  | Effect.processExit _ => true
  | Effect.setExitCode _ => true
  | _ => false

/-- The calls of a history that end the process or set its exit status, in order. -/
def exitsOf (t : List Effect) : List Effect :=
  t.filter Effect.isExit

/-- A console whose calls all return. -/
def stdConsole : Console := Console.mk (fun _ => none) (fun _ => none)

/-- The body of the todo item served at `url`. -/
def todo1 : JSValue :=
  JSValue.obj
    [("id", JSValue.num 1), ("userId", JSValue.num 1),
     ("title", JSValue.str "delectus aut autem"), ("completed", JSValue.bool false)]

/-- The response object for a status and a body. -/
def mkResponse (status : Int) (data : JSValue) : JSValue :=
  JSValue.obj [("data", data), ("status", JSValue.num status)]

/-- The value of `v.data` when reading it does not throw. -/
def JSValue.dataOf : JSValue → JSValue
  | JSValue.obj fields => (fields.lookup "data").getD JSValue.undefined
  | _ => JSValue.undefined

/-- How the promise of `fetchData` settles once the handler of line 8 has been
entered with `x`: the handler is the last statement, so the promise resolves
unless `console.error` itself throws. -/
def afterHandler (env : Env) (x : JSValue) : Outcome :=
  match env.console.error [JSValue.str label, x] with
  | none => Outcome.resolved JSValue.undefined
  | some y => Outcome.rejected y

/-! ## The HTTP client between the server and the program -/

/-- What a server sends back when the request gets an answer. -/
structure ServerAnswer where
  status : Int
  body : JSValue

/-- An HTTP client seen from the program: how the promise of a request settles
for the answer the server gave. -/
def HttpClient : Type := ServerAnswer → Outcome

/-- The client rejects every answer whose status lies outside 200..299. -/
def RejectsNon2xx (client : HttpClient) : Prop :=
  ∀ ans : ServerAnswer, ans.status < 200 ∨ 299 < ans.status → ∃ e, client ans = Outcome.rejected e

/-- The `axios` module of a run in which the server gives `ans` to every request. -/
def serve (client : HttpClient) (ans : ServerAnswer) : Axios :=
  Axios.mk fun _ => client ans

/-- A sample client with the status validation the specification relies on
(its section 4.1 step 4 and section 7 count a non-2xx status among the failures
of the call); the validation itself is code of the `axios` package, not of this
repository.  A status in 200..299 resolves with the response, any other rejects
with an error that carries the response. -/
def axiosDefault : HttpClient := fun ans =>
  if 200 ≤ ans.status ∧ ans.status < 300 then
    Outcome.resolved (mkResponse ans.status ans.body)
  else
    Outcome.rejected
      (JSValue.obj
        [("name", JSValue.str "AxiosError"),
         ("message", JSValue.str ("Request failed with status code " ++ toString ans.status)),
         ("response", mkResponse ans.status ans.body)])

/-! ## Sample environments -/

/-- An environment whose request settles as given, under a console that returns. -/
def envOf (o : Outcome) : Env := Env.mk (Axios.mk fun _ => o) stdConsole

/-- The error of a failed DNS lookup. -/
def dnsError : JSValue :=
  JSValue.obj
    [("name", JSValue.str "Error"), ("code", JSValue.str "ENOTFOUND"),
     ("message", JSValue.str "getaddrinfo ENOTFOUND jsonplaceholder.typicode.com")]

/-- An error of another kind: the connection is refused. -/
def refusedError : JSValue :=
  JSValue.obj [("name", JSValue.str "Error"), ("code", JSValue.str "ECONNREFUSED")]

/-- A console whose `log` throws the given value and whose `error` returns. -/
def logThrows (x : JSValue) : Console := Console.mk (fun _ => some x) (fun _ => none)

/-! ## Stepping through `fetchData` -/

theorem getData_of_not_nullish (r : JSValue) (hr : r.isNullish = false) :
    getData r = JS.ret r.dataOf := by
  cases r <;> simp_all [getData, JSValue.dataOf, JSValue.isNullish]

theorem getData_of_nullish (r : JSValue) (hr : r.isNullish = true) :
    getData r = JS.throw (typeErrorCannotRead r "data") := by
  cases r <;> simp_all [getData, JSValue.isNullish]

/-- The request is rejected with `e`: the handler runs on `e`. -/
theorem fetchData_rejected (env : Env) (t : List Effect) (e : JSValue)
    (hget : env.axios.get [JSValue.str url] = Outcome.rejected e) :
    fetchData env t =
      (Except.ok (afterHandler env e),
        t ++ [Effect.httpGet [JSValue.str url],
              Effect.consoleError [JSValue.str label, e]]) := by
  simp only [fetchData, async, JS.tryCatch, bind, JS.seq, axios_get, hget, await, JS.throw,
    console_error, afterHandler]
  cases env.console.error [JSValue.str label, e] <;> simp

/-- The request resolves with `undefined` or `null`: line 6 throws before
printing and the handler runs on the `TypeError`. -/
theorem fetchData_resolved_nullish (env : Env) (t : List Effect) (r : JSValue)
    (hget : env.axios.get [JSValue.str url] = Outcome.resolved r)
    (hr : r.isNullish = true) :
    fetchData env t =
      (Except.ok (afterHandler env (typeErrorCannotRead r "data")),
        t ++ [Effect.httpGet [JSValue.str url],
              Effect.consoleError [JSValue.str label, typeErrorCannotRead r "data"]]) := by
  simp only [fetchData, async, JS.tryCatch, bind, JS.seq, axios_get, hget, await, JS.ret,
    getData_of_nullish r hr, JS.throw, console_error, afterHandler]
  cases env.console.error [JSValue.str label, typeErrorCannotRead r "data"] <;> simp

/-- The request resolves with a value whose `data` can be read and
`console.log` returns: the body runs to its end. -/
theorem fetchData_resolved_logged (env : Env) (t : List Effect) (r : JSValue)
    (hget : env.axios.get [JSValue.str url] = Outcome.resolved r)
    (hr : r.isNullish = false) (hlog : env.console.log [r.dataOf] = none) :
    fetchData env t =
      (Except.ok (Outcome.resolved JSValue.undefined),
        t ++ [Effect.httpGet [JSValue.str url], Effect.consoleLog [r.dataOf]]) := by
  simp [fetchData, async, JS.tryCatch, bind, JS.seq, axios_get, hget, await, JS.ret,
    getData_of_not_nullish r hr, console_log, hlog]

/-- The request resolves with a value whose `data` can be read and
`console.log` throws `x`: the handler runs on `x`. -/
theorem fetchData_resolved_log_throws (env : Env) (t : List Effect) (r x : JSValue)
    (hget : env.axios.get [JSValue.str url] = Outcome.resolved r)
    (hr : r.isNullish = false) (hlog : env.console.log [r.dataOf] = some x) :
    fetchData env t =
      (Except.ok (afterHandler env x),
        t ++ [Effect.httpGet [JSValue.str url], Effect.consoleLog [r.dataOf],
              Effect.consoleError [JSValue.str label, x]]) := by
  simp only [fetchData, async, JS.tryCatch, bind, JS.seq, axios_get, hget, await, JS.ret,
    getData_of_not_nullish r hr, console_log, hlog, console_error, afterHandler]
  cases env.console.error [JSValue.str label, x] <;> simp

/-- The history of a run is the history `fetchData` leaves. -/
theorem main_trace (env : Env) (t : List Effect) :
    (main env t).trace = (fetchData env t).2 := by
  unfold main
  split <;> simp_all

/-- Nothing is left unhandled when the promise of `fetchData` resolves. -/
theorem main_unhandled_of_resolved (env : Env) (t t1 : List Effect) (v : JSValue)
    (h : fetchData env t = (Except.ok (Outcome.resolved v), t1)) :
    (main env t).unhandled = none := by
  unfold main
  rw [h]

/-- Whatever the environment does, a call of `fetchData` returns a promise and
extends the history by the request followed by console calls only. -/
theorem fetchData_shape (env : Env) (t : List Effect) :
    ∃ (o : Outcome) (evs : List Effect),
      fetchData env t = (Except.ok o, t ++ Effect.httpGet [JSValue.str url] :: evs) ∧
      ∀ e ∈ evs, (∃ a, e = Effect.consoleLog a) ∨ (∃ a, e = Effect.consoleError a) := by
  cases hget : env.axios.get [JSValue.str url] with
  | rejected e =>
    exact ⟨_, [Effect.consoleError [JSValue.str label, e]],
      fetchData_rejected env t e hget, by simp⟩
  | resolved r =>
    cases hr : r.isNullish with
    | true =>
      exact ⟨_, [Effect.consoleError [JSValue.str label, typeErrorCannotRead r "data"]],
        fetchData_resolved_nullish env t r hget hr, by simp⟩
    | false =>
      cases hlog : env.console.log [r.dataOf] with
      | none =>
        exact ⟨_, [Effect.consoleLog [r.dataOf]],
          fetchData_resolved_logged env t r hget hr hlog, by simp⟩
      | some x =>
        exact ⟨_, [Effect.consoleLog [r.dataOf], Effect.consoleError [JSValue.str label, x]],
          fetchData_resolved_log_throws env t r x hget hr hlog, by simp⟩

/-- Console calls are not requests. -/
theorem requestsOf_console (evs : List Effect)
    (h : ∀ e ∈ evs, (∃ a, e = Effect.consoleLog a) ∨ (∃ a, e = Effect.consoleError a)) :
    requestsOf evs = [] := by
  induction evs with
  | nil => rfl
  | cons e evs ih =>
    have hrest : requestsOf evs = [] := ih (fun e1 h1 => h e1 (List.mem_cons_of_mem e h1))
    rcases h e (List.mem_cons_self e evs) with ⟨a, rfl⟩ | ⟨a, rfl⟩ <;>
      simpa [requestsOf] using hrest

theorem requestsOf_append (t1 t2 : List Effect) :
    requestsOf (t1 ++ t2) = requestsOf t1 ++ requestsOf t2 := by
  simp [requestsOf, List.filterMap_append]

/-- The requests of a run: those of the history, then the one of line 5. -/
theorem requestsOf_main (env : Env) (t : List Effect) :
    requestsOf (main env t).trace = requestsOf t ++ [[JSValue.str url]] := by
  obtain ⟨o, evs, hrun, hevs⟩ := fetchData_shape env t
  rw [main_trace, hrun]
  show requestsOf (t ++ Effect.httpGet [JSValue.str url] :: evs) = _
  rw [requestsOf_append]
  have hrest := requestsOf_console evs hevs
  simp only [requestsOf, List.filterMap_cons] at hrest ⊢
  rw [hrest]

theorem stdoutOf_append (t1 t2 : List Effect) :
    stdoutOf (t1 ++ t2) = stdoutOf t1 ++ stdoutOf t2 := by
  simp [stdoutOf, List.filterMap_append]

theorem stderrOf_append (t1 t2 : List Effect) :
    stderrOf (t1 ++ t2) = stderrOf t1 ++ stderrOf t2 := by
  simp [stderrOf, List.filterMap_append]

/-- The calls a run adds do not depend on the history it starts from. -/
theorem main_trace_history (env : Env) (t : List Effect) :
    (main env t).trace = t ++ (main env []).trace := by
  rw [main_trace, main_trace]
  cases hget : env.axios.get [JSValue.str url] with
  | rejected e =>
    rw [fetchData_rejected env t e hget, fetchData_rejected env [] e hget]; simp
  | resolved r =>
    cases hr : r.isNullish with
    | true =>
      rw [fetchData_resolved_nullish env t r hget hr,
        fetchData_resolved_nullish env [] r hget hr]; simp
    | false =>
      cases hlog : env.console.log [r.dataOf] with
      | none =>
        rw [fetchData_resolved_logged env t r hget hr hlog,
          fetchData_resolved_logged env [] r hget hr hlog]; simp
      | some x =>
        rw [fetchData_resolved_log_throws env t r x hget hr hlog,
          fetchData_resolved_log_throws env [] r x hget hr hlog]; simp

/-- The history of a run depends on the environment only through the settlement
of the request of line 5 and the behaviour of `console.log`. -/
theorem main_trace_congr (env1 env2 : Env)
    (hget : env1.axios.get [JSValue.str url] = env2.axios.get [JSValue.str url])
    (hlog : env1.console.log = env2.console.log) :
    (main env1 []).trace = (main env2 []).trace := by
  rw [main_trace, main_trace]
  cases h2 : env2.axios.get [JSValue.str url] with
  | rejected e =>
    rw [fetchData_rejected env1 [] e (hget.trans h2), fetchData_rejected env2 [] e h2]
  | resolved r =>
    cases hr : r.isNullish with
    | true =>
      rw [fetchData_resolved_nullish env1 [] r (hget.trans h2) hr,
        fetchData_resolved_nullish env2 [] r h2 hr]
    | false =>
      cases hl : env2.console.log [r.dataOf] with
      | none =>
        rw [fetchData_resolved_logged env1 [] r (hget.trans h2) hr (by rw [hlog]; exact hl),
          fetchData_resolved_logged env2 [] r h2 hr hl]
      | some x =>
        rw [fetchData_resolved_log_throws env1 [] r x (hget.trans h2) hr (by rw [hlog]; exact hl),
          fetchData_resolved_log_throws env2 [] r x h2 hr hl]

/-- When `data` can be read, standard output receives it whatever `console.log` does next. -/
theorem stdoutOf_main_resolved (env : Env) (r : JSValue)
    (hget : env.axios.get [JSValue.str url] = Outcome.resolved r)
    (hr : r.isNullish = false) :
    stdoutOf (main env []).trace = [[r.dataOf]] := by
  rw [main_trace]
  cases hlog : env.console.log [r.dataOf] with
  | none => rw [fetchData_resolved_logged env [] r hget hr hlog]; rfl
  | some x => rw [fetchData_resolved_log_throws env [] r x hget hr hlog]; rfl

/-- The failure path: request, then one `console.error` call with the label and the reason. -/
theorem fetchData_failure_logs_error_aux (env : Env) (e : JSValue)
    (hget : env.axios.get [JSValue.str url] = Outcome.rejected e) :
    (main env []).trace =
      [Effect.httpGet [JSValue.str url], Effect.consoleError [JSValue.str label, e]] ∧
    stderrOf (main env []).trace = [[JSValue.str label, e]] ∧
    stdoutOf (main env []).trace = [] := by
  have h := fetchData_rejected env [] e hget
  have ht : (main env []).trace =
      [Effect.httpGet [JSValue.str url], Effect.consoleError [JSValue.str label, e]] := by
    rw [main_trace, h]; rfl
  rw [ht]
  exact ⟨rfl, rfl, rfl⟩

/-- The modelled default client validates the status. -/
theorem axiosDefault_rejectsNon2xx : RejectsNon2xx axiosDefault := by
  intro ans hstatus
  have hnot : ¬ (200 ≤ ans.status ∧ ans.status < 300) := by omega
  unfold axiosDefault
  rw [if_neg hnot]
  exact ⟨_, rfl⟩

/-- No call of a run ends the process or sets its exit status. -/
theorem isExit_console (evs : List Effect)
    (h : ∀ e ∈ evs, (∃ a, e = Effect.consoleLog a) ∨ (∃ a, e = Effect.consoleError a)) :
    ∀ e ∈ evs, e.isExit = false := by
  intro e he
  rcases h e he with ⟨a, rfl⟩ | ⟨a, rfl⟩ <;> rfl

/-! ## The claims -/

/-- C1: whenever the GET resolves with a response `r` and the `console.log`
call returns, the run consists of the request and one `console.log` call with
`r.data` as its only argument: standard output receives exactly `r.data`,
standard error receives nothing, and the promise of `fetchData` resolves. -/
theorem fetchData_success_prints_data (env : Env) (r : JSValue)
    (hget : env.axios.get [JSValue.str url] = Outcome.resolved r)
    (hr : r.isNullish = false)
    (hlog : env.console.log [r.dataOf] = none) :
    (main env []).trace = [Effect.httpGet [JSValue.str url], Effect.consoleLog [r.dataOf]] ∧
    stdoutOf (main env []).trace = [[r.dataOf]] ∧
    stderrOf (main env []).trace = [] := by
  have h := fetchData_resolved_logged env [] r hget hr hlog
  have ht : (main env []).trace =
      [Effect.httpGet [JSValue.str url], Effect.consoleLog [r.dataOf]] := by
    rw [main_trace, h]; rfl
  rw [ht]
  exact ⟨rfl, rfl, rfl⟩

/-- C1 at the response of the spec: status 200 and the todo item as `data`. -/
theorem fetchData_success_prints_data_witness :
    (envOf (Outcome.resolved (mkResponse 200 todo1))).axios.get [JSValue.str url]
        = Outcome.resolved (mkResponse 200 todo1) ∧
    (mkResponse 200 todo1).isNullish = false ∧
    (mkResponse 200 todo1).dataOf = todo1 ∧
    stdoutOf (main (envOf (Outcome.resolved (mkResponse 200 todo1))) []).trace = [[todo1]] ∧
    stderrOf (main (envOf (Outcome.resolved (mkResponse 200 todo1))) []).trace = [] :=
  ⟨rfl, rfl, rfl,
    (fetchData_success_prints_data (envOf (Outcome.resolved (mkResponse 200 todo1)))
      (mkResponse 200 todo1) rfl rfl rfl).2⟩

/-- C2: whenever the GET rejects with `e`, whatever `e` is, the run consists of
the request and one `console.error` call with the label and `e` itself:
standard error receives exactly that call and standard output nothing. -/
theorem fetchData_failure_logs_error (env : Env) (e : JSValue)
    (hget : env.axios.get [JSValue.str url] = Outcome.rejected e) :
    (main env []).trace =
      [Effect.httpGet [JSValue.str url],
       Effect.consoleError [JSValue.str "Error fetching data:", e]] ∧
    stderrOf (main env []).trace = [[JSValue.str "Error fetching data:", e]] ∧
    stdoutOf (main env []).trace = [] := by
  exact fetchData_failure_logs_error_aux env e hget

/-- C2 at a failed DNS lookup. -/
theorem fetchData_failure_logs_error_witness :
    (envOf (Outcome.rejected dnsError)).axios.get [JSValue.str url]
        = Outcome.rejected dnsError ∧
    stderrOf (main (envOf (Outcome.rejected dnsError)) []).trace
        = [[JSValue.str "Error fetching data:", dnsError]] ∧
    stdoutOf (main (envOf (Outcome.rejected dnsError)) []).trace = [] :=
  ⟨rfl, (fetchData_failure_logs_error (envOf (Outcome.rejected dnsError)) dnsError rfl).2⟩

/-- C3: in every environment, however the call settles and whatever the console
does, a run issues exactly one request: one on an empty history, and one more
than the history it starts from holds. -/
theorem main_issues_one_request (env : Env) :
    (requestsOf (main env []).trace).length = 1 ∧
    ∀ history : List Effect,
      (requestsOf (main env history).trace).length = (requestsOf history).length + 1 := by
  refine ⟨?_, fun history => ?_⟩
  · rw [requestsOf_main]; rfl
  · rw [requestsOf_main]; simp

/-- C4: in every environment the one request is a call of `axios.get` whose
argument list is the URL string alone: no second argument carries headers,
parameters, a body or a timeout. -/
theorem main_request_is_bare_get (env : Env) :
    requestsOf (main env []).trace =
      [[JSValue.str "https://jsonplaceholder.typicode.com/todos/1"]] := by
  rw [requestsOf_main]; rfl

/-- C5: in every environment in which the `console.error` call of the handler
returns, however the call settles, the promise returned by `fetchData` resolves
with `undefined` (it is never rejected and the call never throws), so the run
leaves nothing unhandled at line 12; and a failure of the call is caught and
logged: when the request is rejected with `e`, the run adds to the history the
request and one `console.error` call with the label and `e`, and nothing else. -/
theorem fetchData_always_resolves (env : Env)
    (herr : ∀ x : JSValue, env.console.error [JSValue.str label, x] = none)
    (history : List Effect) :
    (fetchData env history).1 = Except.ok (Outcome.resolved JSValue.undefined) ∧
    (main env history).unhandled = none ∧
    ∀ e : JSValue, env.axios.get [JSValue.str url] = Outcome.rejected e →
      (main env history).trace =
        history ++ [Effect.httpGet [JSValue.str url],
                    Effect.consoleError [JSValue.str "Error fetching data:", e]] ∧
      stderrOf (main env []).trace = [[JSValue.str "Error fetching data:", e]] := by
  have hafter : ∀ x, afterHandler env x = Outcome.resolved JSValue.undefined := by
    intro x; simp [afterHandler, herr x]
  have key : ∃ t1, fetchData env history =
      (Except.ok (Outcome.resolved JSValue.undefined), t1) := by
    cases hget : env.axios.get [JSValue.str url] with
    | rejected e =>
      exact ⟨_, by rw [fetchData_rejected env history e hget, hafter]⟩
    | resolved r =>
      cases hr : r.isNullish with
      | true =>
        exact ⟨_, by rw [fetchData_resolved_nullish env history r hget hr, hafter]⟩
      | false =>
        cases hlog : env.console.log [r.dataOf] with
        | none => exact ⟨_, fetchData_resolved_logged env history r hget hr hlog⟩
        | some x =>
          exact ⟨_, by rw [fetchData_resolved_log_throws env history r x hget hr hlog, hafter]⟩
  obtain ⟨t1, h⟩ := key
  refine ⟨by rw [h], main_unhandled_of_resolved env history t1 _ h, fun e hget => ⟨?_, ?_⟩⟩
  · rw [main_trace, fetchData_rejected env history e hget]; rfl
  · exact (fetchData_failure_logs_error_aux env e hget).2.1

/-- C5 at a request rejected by a failed DNS lookup, started on a history that
already holds a call, and at a resolved request. -/
theorem fetchData_always_resolves_witness :
    (∀ x : JSValue, (envOf (Outcome.rejected dnsError)).console.error
        [JSValue.str label, x] = none) ∧
    (envOf (Outcome.rejected dnsError)).axios.get [JSValue.str url]
        = Outcome.rejected dnsError ∧
    (fetchData (envOf (Outcome.rejected dnsError)) [Effect.consoleLog []]).1
        = Except.ok (Outcome.resolved JSValue.undefined) ∧
    (main (envOf (Outcome.rejected dnsError)) [Effect.consoleLog []]).unhandled = none ∧
    (main (envOf (Outcome.rejected dnsError)) [Effect.consoleLog []]).trace =
      [Effect.consoleLog []] ++
        [Effect.httpGet [JSValue.str url],
         Effect.consoleError [JSValue.str "Error fetching data:", dnsError]] ∧
    stderrOf (main (envOf (Outcome.rejected dnsError)) []).trace
        = [[JSValue.str "Error fetching data:", dnsError]] ∧
    (main (envOf (Outcome.resolved (mkResponse 200 todo1))) []).unhandled = none :=
  ⟨fun _ => rfl, rfl,
    (fetchData_always_resolves (envOf (Outcome.rejected dnsError)) (fun _ => rfl)
      [Effect.consoleLog []]).1,
    (fetchData_always_resolves (envOf (Outcome.rejected dnsError)) (fun _ => rfl)
      [Effect.consoleLog []]).2.1,
    ((fetchData_always_resolves (envOf (Outcome.rejected dnsError)) (fun _ => rfl)
      [Effect.consoleLog []]).2.2 dnsError rfl).1,
    ((fetchData_always_resolves (envOf (Outcome.rejected dnsError)) (fun _ => rfl)
      [Effect.consoleLog []]).2.2 dnsError rfl).2,
    (fetchData_always_resolves (envOf (Outcome.resolved (mkResponse 200 todo1)))
      (fun _ => rfl) []).2.1⟩

/-- C6: under an HTTP client that rejects every answer whose status lies outside
200..299, an answer with such a status (404 among them) sends the run down the
failure path: the client rejects with some `e`, standard error receives the
label and `e`, and standard output receives nothing, the body included. -/
theorem non2xx_takes_failure_path (client : HttpClient) (console : Console)
    (ans : ServerAnswer) (hclient : RejectsNon2xx client)
    (hstatus : ans.status < 200 ∨ 299 < ans.status) :
    ∃ e : JSValue, client ans = Outcome.rejected e ∧
      (main (Env.mk (serve client ans) console) []).trace =
        [Effect.httpGet [JSValue.str url],
         Effect.consoleError [JSValue.str "Error fetching data:", e]] ∧
      stderrOf (main (Env.mk (serve client ans) console) []).trace
        = [[JSValue.str "Error fetching data:", e]] ∧
      stdoutOf (main (Env.mk (serve client ans) console) []).trace = [] := by
  obtain ⟨e, he⟩ := hclient ans hstatus
  exact ⟨e, he, fetchData_failure_logs_error_aux (Env.mk (serve client ans) console) e he⟩

/-- C6 at status 404 under the modelled default client. -/
theorem non2xx_takes_failure_path_witness :
    RejectsNon2xx axiosDefault ∧
    ((ServerAnswer.mk 404 (JSValue.obj [])).status < 200 ∨
      299 < (ServerAnswer.mk 404 (JSValue.obj [])).status) ∧
    ∃ e : JSValue, axiosDefault (ServerAnswer.mk 404 (JSValue.obj [])) = Outcome.rejected e ∧
      (main (Env.mk (serve axiosDefault (ServerAnswer.mk 404 (JSValue.obj []))) stdConsole)
        []).trace =
        [Effect.httpGet [JSValue.str url],
         Effect.consoleError [JSValue.str "Error fetching data:", e]] ∧
      stderrOf (main (Env.mk (serve axiosDefault (ServerAnswer.mk 404 (JSValue.obj [])))
        stdConsole) []).trace = [[JSValue.str "Error fetching data:", e]] ∧
      stdoutOf (main (Env.mk (serve axiosDefault (ServerAnswer.mk 404 (JSValue.obj [])))
        stdConsole) []).trace = [] :=
  ⟨axiosDefault_rejectsNon2xx, Or.inr (by decide),
    non2xx_takes_failure_path axiosDefault stdConsole (ServerAnswer.mk 404 (JSValue.obj []))
      axiosDefault_rejectsNon2xx (Or.inr (by decide))⟩

/-- C7: two runs whose HTTP call settles the same way, under the same
`console.log`, write the same to standard output and the same to standard
error, whatever else differs between their environments; and the second run,
started on the history the first one left, adds exactly the calls it makes on
an empty history, so nothing of the first run reaches it. -/
theorem output_depends_on_outcome_only (env1 env2 : Env)
    (hget : env1.axios.get [JSValue.str url] = env2.axios.get [JSValue.str url])
    (hlog : env1.console.log = env2.console.log) :
    stdoutOf (main env1 []).trace = stdoutOf (main env2 []).trace ∧
    stderrOf (main env1 []).trace = stderrOf (main env2 []).trace ∧
    (main env2 (main env1 []).trace).trace = (main env1 []).trace ++ (main env2 []).trace := by
  refine ⟨?_, ?_, main_trace_history env2 _⟩
  · rw [main_trace_congr env1 env2 hget hlog]
  · rw [main_trace_congr env1 env2 hget hlog]

/-- C7 at two environments that reject alike but differ in every other request
and in `console.error`. -/
theorem output_depends_on_outcome_only_witness :
    (envOf (Outcome.rejected dnsError)).axios.get [JSValue.str url] =
      (Env.mk (Axios.mk fun args =>
          if args.length = 1 then Outcome.rejected dnsError else Outcome.resolved JSValue.null)
        (Console.mk (fun _ => none) (fun _ => some JSValue.null))).axios.get
        [JSValue.str url] ∧
    (envOf (Outcome.rejected dnsError)).console.log =
      (Env.mk (Axios.mk fun args =>
          if args.length = 1 then Outcome.rejected dnsError else Outcome.resolved JSValue.null)
        (Console.mk (fun _ => none) (fun _ => some JSValue.null))).console.log ∧
    stderrOf (main (envOf (Outcome.rejected dnsError)) []).trace =
      stderrOf (main (Env.mk (Axios.mk fun args =>
          if args.length = 1 then Outcome.rejected dnsError else Outcome.resolved JSValue.null)
        (Console.mk (fun _ => none) (fun _ => some JSValue.null))) []).trace :=
  ⟨rfl, rfl,
    (output_depends_on_outcome_only (envOf (Outcome.rejected dnsError))
      (Env.mk (Axios.mk fun args =>
          if args.length = 1 then Outcome.rejected dnsError else Outcome.resolved JSValue.null)
        (Console.mk (fun _ => none) (fun _ => some JSValue.null))) rfl rfl).2.1⟩

/-- C8: for two resolved responses with the same `data`, whatever else they
hold and whatever the console does, standard output receives the same thing in
both runs, namely that `data`, unchanged and whatever its shape. -/
theorem stdout_depends_on_data_only (env1 env2 : Env) (r1 r2 : JSValue)
    (hget1 : env1.axios.get [JSValue.str url] = Outcome.resolved r1)
    (hget2 : env2.axios.get [JSValue.str url] = Outcome.resolved r2)
    (hr1 : r1.isNullish = false) (hr2 : r2.isNullish = false)
    (hdata : r1.dataOf = r2.dataOf) :
    stdoutOf (main env1 []).trace = [[r1.dataOf]] ∧
    stdoutOf (main env2 []).trace = stdoutOf (main env1 []).trace := by
  rw [stdoutOf_main_resolved env1 r1 hget1 hr1, stdoutOf_main_resolved env2 r2 hget2 hr2, hdata]
  exact ⟨rfl, rfl⟩

/-- C8 at two responses of different status and fields whose `data` is a string. -/
theorem stdout_depends_on_data_only_witness :
    (mkResponse 200 (JSValue.str "ok")).dataOf =
      (JSValue.obj [("headers", JSValue.obj []), ("data", JSValue.str "ok")]).dataOf ∧
    stdoutOf (main (envOf (Outcome.resolved (mkResponse 200 (JSValue.str "ok")))) []).trace
      = [[JSValue.str "ok"]] ∧
    stdoutOf (main (envOf (Outcome.resolved
        (JSValue.obj [("headers", JSValue.obj []), ("data", JSValue.str "ok")]))) []).trace
      = stdoutOf (main (envOf (Outcome.resolved (mkResponse 200 (JSValue.str "ok")))) []).trace :=
  ⟨rfl,
    stdout_depends_on_data_only
      (envOf (Outcome.resolved (mkResponse 200 (JSValue.str "ok"))))
      (envOf (Outcome.resolved
        (JSValue.obj [("headers", JSValue.obj []), ("data", JSValue.str "ok")])))
      (mkResponse 200 (JSValue.str "ok"))
      (JSValue.obj [("headers", JSValue.obj []), ("data", JSValue.str "ok")])
      rfl rfl rfl rfl rfl⟩

/-- C9: in every environment, however the call settles, the trace of a run
holds no `process.exit` call and no assignment of `process.exitCode`: the
failure path leaves the exit status as untouched as the success path. -/
theorem main_never_sets_exit_status (env : Env) :
    exitsOf (main env []).trace = [] := by
  obtain ⟨o, evs, hrun, hevs⟩ := fetchData_shape env []
  rw [main_trace, hrun]
  simp only [exitsOf, List.nil_append, List.filter_eq_nil_iff, List.mem_cons]
  intro e he
  rcases he with rfl | he
  · simp [Effect.isExit]
  · simp [isExit_console evs hevs e he]

/-- C10: when the GET resolves with `r` and line 6 then throws `x`, either the
`TypeError` of reading `data` of `undefined` or `null`, or what `console.log`
throws, the handler of line 8 runs on `x`: standard error receives the label
and `x` although the request was not rejected, and, `console.error` returning,
the promise of `fetchData` resolves and nothing is left unhandled. -/
theorem catch_covers_success_path (env : Env) (r x : JSValue)
    (hget : env.axios.get [JSValue.str url] = Outcome.resolved r)
    (hthrow : (r.isNullish = true ∧ x = typeErrorCannotRead r "data") ∨
      (r.isNullish = false ∧ env.console.log [r.dataOf] = some x))
    (herr : env.console.error [JSValue.str label, x] = none) :
    stderrOf (main env []).trace = [[JSValue.str "Error fetching data:", x]] ∧
    (fetchData env []).1 = Except.ok (Outcome.resolved JSValue.undefined) ∧
    (main env []).unhandled = none := by
  have hafter : afterHandler env x = Outcome.resolved JSValue.undefined := by
    simp [afterHandler, herr]
  rcases hthrow with ⟨hr, rfl⟩ | ⟨hr, hlog⟩
  · have h := fetchData_resolved_nullish env [] r hget hr
    rw [hafter] at h
    refine ⟨?_, by rw [h], main_unhandled_of_resolved env [] _ _ h⟩
    rw [main_trace, h]; rfl
  · have h := fetchData_resolved_log_throws env [] r x hget hr hlog
    rw [hafter] at h
    refine ⟨?_, by rw [h], main_unhandled_of_resolved env [] _ _ h⟩
    rw [main_trace, h]; rfl

/-- C10 at a request resolved with `undefined`, and at a response whose printing throws. -/
theorem catch_covers_success_path_witness :
    ((envOf (Outcome.resolved JSValue.undefined)).axios.get [JSValue.str url]
        = Outcome.resolved JSValue.undefined ∧
      stderrOf (main (envOf (Outcome.resolved JSValue.undefined)) []).trace
        = [[JSValue.str "Error fetching data:",
            typeErrorCannotRead JSValue.undefined "data"]]) ∧
    ((Env.mk (Axios.mk fun _ => Outcome.resolved (mkResponse 200 todo1))
        (logThrows refusedError)).axios.get [JSValue.str url]
        = Outcome.resolved (mkResponse 200 todo1) ∧
      stderrOf (main (Env.mk (Axios.mk fun _ => Outcome.resolved (mkResponse 200 todo1))
        (logThrows refusedError)) []).trace
        = [[JSValue.str "Error fetching data:", refusedError]]) :=
  ⟨⟨rfl, (catch_covers_success_path (envOf (Outcome.resolved JSValue.undefined))
      JSValue.undefined (typeErrorCannotRead JSValue.undefined "data") rfl
      (Or.inl ⟨rfl, rfl⟩) rfl).1⟩,
   ⟨rfl, (catch_covers_success_path
      (Env.mk (Axios.mk fun _ => Outcome.resolved (mkResponse 200 todo1))
        (logThrows refusedError))
      (mkResponse 200 todo1) refusedError rfl (Or.inr ⟨rfl, rfl⟩) rfl).1⟩⟩

end Fetcher
